import Mathlib

/-!
Shallow embedding of the `tado_local` state-synchronization core
(`coordinator.py` and `climate.py`, both the Home-Assistant integration
version under `custom_components/tado_local/` and the flat legacy version).

Python dicts carrying zone records are modelled as Lean structures whose
fields are `Option`-valued: `dict.get(k)` returns `None` both when the key
is absent and when it is stored as `null`, and the code only ever accesses
these records through `.get`, so absent and null collapse to `none`.
JSON numbers are modelled exactly as rationals (the code never performs
arithmetic on them, it only moves them around).
-/

/-- The `state` sub-record of a zone, as read by `climate.py`
(`cur_temp_c`, `target_temp_c`, `mode`, `cur_heating`). -/
structure ZoneState where
  cur_temp_c : Option ℚ
  target_temp_c : Option ℚ
  mode : Option ℤ
  cur_heating : Option ℤ
deriving DecidableEq, Repr

/-- The empty state dict `{}` (used as the default of `event_data.get("state", {})`). -/
def ZoneState.empty : ZoneState := ⟨none, none, none, none⟩

/-- A zone record as held in the coordinator's table: the two possible id
keys, the two possible name keys, and the `state` sub-record (a record whose
`state` key is absent behaves exactly like one holding `{}`, because every
read goes through `.get("state", {})`; the two are therefore collapsed). -/
structure Zone where
  zone_id : Option ℤ
  thermostat_id : Option ℤ
  name : Option String
  zone_name : Option String
  state : ZoneState
deriving DecidableEq, Repr

/-- Python `a or b` on string-valued reads: `None` and the empty string are
falsy, so they select `b`; any other string selects `a`. -/
def pyOrStr (a b : Option String) : Option String :=
  if a = none ∨ a = some "" then b else a

/-- A decoded SSE event payload (`event_data` in `_process_sse_event`),
a JSON object accessed only via `.get`. -/
structure EventData where
  type : Option String
  zone_id : Option ℤ
  zone_name : Option String
  device_id : Option ℤ
  serial : Option String
  state : Option ZoneState
deriving DecidableEq, Repr

/-- The replacement record built in the `zone` branch when a matching zone
`z` is found:
`{"zone_id": zone_id, "thermostat_id": zone_id, "name": zone_name or z.get("name"),
"zone_name": zone_name or z.get("zone_name"), "state": state}`. -/
def mkUpdatedZone (zid : Option ℤ) (zname : Option String) (st : ZoneState)
    (z : Zone) : Zone :=
  { zone_id := zid
    thermostat_id := zid
    name := pyOrStr zname z.name
    zone_name := pyOrStr zname z.zone_name
    state := st }

/-- The fresh record appended in the `zone` branch when no zone matches. -/
def mkFreshZone (zid : Option ℤ) (zname : Option String) (st : ZoneState) : Zone :=
  { zone_id := zid, thermostat_id := zid, name := zname, zone_name := zname, state := st }

/-- Python match test of the `zone` branch:
`zone.get("zone_id") == zone_id or zone.get("thermostat_id") == zone_id`
(note `None == None` is `True` in Python, matching `Option` equality). -/
def zoneIdMatch (zid : Option ℤ) (z : Zone) : Bool :=
  z.zone_id = zid ∨ z.thermostat_id = zid

/-- The `for i, zone in enumerate(current_data): ... break` loop of the
`zone` branch: replace the first zone matching the event id and stop;
`none` when no zone matched (`updated` stayed `False`). -/
def updateZoneLoop (zid : Option ℤ) (zname : Option String) (st : ZoneState) :
    List Zone → Option (List Zone)
  | [] => none
  | z :: rest =>
      if zoneIdMatch zid z then some (mkUpdatedZone zid zname st z :: rest)
      else (updateZoneLoop zid zname st rest).map (z :: ·)

/-- The whole `zone` branch: update in place, or append when not found. -/
def applyZoneEvent (zid : Option ℤ) (zname : Option String) (st : ZoneState)
    (current : List Zone) : List Zone :=
  match updateZoneLoop zid zname st current with
  | some t => t
  | none => current ++ [mkFreshZone zid zname st]

/-- Python match test of the `device` branch:
`zone.get("zone_name") == zone_name or zone.get("name") == zone_name`. -/
def deviceMatch (zname : Option String) (z : Zone) : Bool :=
  z.zone_name = zname ∨ z.name = zname

/-- The `for i, zone in enumerate(current_data): ... break` loop of the
`device` branch: replace the `state` of the first zone whose name matches
and stop; no match leaves the list untouched (devices never create zones). -/
def applyDeviceEvent (zname : Option String) (st : ZoneState) :
    List Zone → List Zone
  | [] => []
  | z :: rest =>
      if deviceMatch zname z then { z with state := st } :: rest
      else z :: applyDeviceEvent zname st rest

/-- `_process_sse_event` (identical in both coordinator versions), as a pure
function of the coordinator's published table. The result is `none` when the
function returns early (keepalive / unknown type: no table write, no
notification) and `some t` when it reaches `async_set_updated_data(t)`
(exactly one notification carrying `t`). The `copy.deepcopy(self.data or [])`
is value copying; its heap-level behaviour is modelled separately below. -/
def process_sse_event (data : Option (List Zone)) (ev : EventData) :
    Option (List Zone) :=
  if ev.type = some "keepalive" then none
  else if ¬ (ev.type = some "zone" ∨ ev.type = some "device") then none
  else
    let current := data.getD []
    if ev.type = some "zone" then
      some (applyZoneEvent ev.zone_id ev.zone_name (ev.state.getD ZoneState.empty) current)
    else
      some (applyDeviceEvent ev.zone_name (ev.state.getD ZoneState.empty) current)

/-!
Poller (`_async_update_data`, identical in both coordinator versions).
-/

/-- The JSON body of a `/zones` poll response, after `response.json()`
succeeds: a bare list, an object (whose `zones` / `thermostats` entries,
when present, are lists of zone records), or any other JSON value. -/
inductive PollBody where
  | list (zs : List Zone)
  | dict (zones : Option (List Zone)) (thermostats : Option (List Zone))
  | other
deriving DecidableEq, Repr

/-- Python `a or b` on list-valued reads: `None` and the empty list `[]`
are falsy. -/
def pyOrList (a : Option (List Zone)) (b : List Zone) : List Zone :=
  if a = none ∨ a = some [] then b else a.getD []

/-- Body extraction of `_async_update_data`:
bare list → itself; dict → `data.get("zones") or data.get("thermostats") or []`;
anything else → `[]`. -/
def extractZones : PollBody → List Zone
  | .list zs => zs
  | .dict zs ts => pyOrList zs (pyOrList ts [])
  | .other => []

/-- Outcome of the HTTP GET inside `_async_update_data`: a transport-level
exception (timeout, connection error), or a response with a status code and
a body (`none` when `response.json()` raises a parse error). -/
inductive HttpResult where
  | error
  | response (status : ℕ) (body : Option PollBody)
deriving DecidableEq, Repr

/-- True exactly on the failure paths of `_async_update_data`: transport
exception, non-200 status, or body-parse failure. -/
def httpFailed : HttpResult → Bool
  | .error => true
  | .response status body => status ≠ 200 || body.isNone

/-- `_async_update_data` as a pure, total function of the previous table
`self.data` and the HTTP outcome. Every failure path returns
`self.data or []` (the last known table); it never raises: parse errors are
swallowed by the outer `except` which also returns `self.data or []`. -/
def async_update_data (data : Option (List Zone)) : HttpResult → List Zone
  | .error => data.getD []
  | .response status body =>
      if status ≠ 200 then data.getD []
      else
        match body with
        | none => data.getD []
        | some b => extractZones b

/-!
Climate entities (`climate.py`). `TadoLocal` is the Home-Assistant
integration version under `custom_components/tado_local/`; `Legacy` is the
flat `src/climate.py` version.
-/

/-- Home-Assistant HVAC modes used by the entity. -/
inductive HVACMode where
  | off
  | heat
  | auto
deriving DecidableEq, Repr

namespace TadoLocal

/-- `hvac_mode` of `custom_components/tado_local/climate.py`: `self.data`
is the zone record found in the coordinator (`none` when absent);
`mode = state.get("mode", 0)`; `3 → AUTO`, `1 → HEAT`, else `OFF`. -/
def hvac_mode (data : Option Zone) : HVACMode :=
  match data with
  | none => .off
  | some z =>
      let mode := z.state.mode.getD 0
      if mode = 3 then .auto
      else if mode = 1 then .heat
      else .off

end TadoLocal

namespace Legacy

/-- `hvac_mode` of the legacy `climate.py`:
`HVACMode.HEAT if mode == 1 else HVACMode.OFF`
where `mode = self.data.get("state", {}).get("mode")`. -/
def hvac_mode (data : Option Zone) : HVACMode :=
  match data with
  | none => .off
  | some z => if z.state.mode = some 1 then .heat else .off

end Legacy

/-- Observable effect of a command POST handler: either the success path
(`asyncio.sleep(1)` then `coordinator.async_request_refresh()`) or the
failure path (`_LOGGER.error`, nothing else). -/
inductive CmdEffect where
  | refreshed
  | loggedFailure
deriving DecidableEq, Repr

namespace TadoLocal

/-- `async_set_temperature` of `custom_components/tado_local/climate.py`,
as a function of the coordinator table and the POST status: the table is
returned untouched (the handler contains no write to `coordinator.data`);
`if resp.status != 200` log an error, else sleep briefly and request a
refresh. `async_set_hvac_mode` has the identical status branch. -/
def async_set_temperature (table : Option (List Zone)) (status : ℕ) :
    Option (List Zone) × CmdEffect :=
  (table, if status ≠ 200 then .loggedFailure else .refreshed)

end TadoLocal

namespace Legacy

/-- `async_set_temperature` of the legacy `climate.py`: the success branch
runs only on `resp.status == 100` (the controller's nonstandard interim
code); every other status, including 200, is logged as a failure.
`async_set_hvac_mode` has the identical status branch. -/
def async_set_temperature (table : Option (List Zone)) (status : ℕ) :
    Option (List Zone) × CmdEffect :=
  (table, if status = 100 then .refreshed else .loggedFailure)

end Legacy

/-!
Reconnect backoff of `_sse_loop` (identical in both coordinator versions).
-/

/-- Outcome of one call to `_connect_sse` inside `_sse_loop`:
`failBeforeStreaming` — an exception raised before the stream is
established (connect error, timeout, non-200 status);
`streamingThenError` — HTTP 200 was reached (the `Streaming` state) but the
connection later ended with a raised exception (body read error);
`normalExit` — the iterator finished without an exception. -/
inductive ConnOutcome where
  | failBeforeStreaming
  | streamingThenError
  | normalExit
deriving DecidableEq, Repr

/-- One iteration of the `while self._sse_running` loop, given the current
`retry_delay`: a normal return sets `retry_delay = 5` and sleeps nothing;
any raised exception sleeps `retry_delay` seconds and then sets
`retry_delay = min(retry_delay * 2, 60)`. Returns the slept delay (if any)
and the next `retry_delay`. -/
def sseStep (d : ℕ) : ConnOutcome → Option ℕ × ℕ
  | .normalExit => (none, 5)
  | .failBeforeStreaming => (some d, min (d * 2) 60)
  | .streamingThenError => (some d, min (d * 2) 60)

/-- The sleeps performed by `_sse_loop` across a sequence of connection
outcomes, starting from `retry_delay = d`. -/
def sseDelays (d : ℕ) : List ConnOutcome → List ℕ
  | [] => []
  | o :: os =>
      let s := sseStep d o
      s.1.toList ++ sseDelays s.2 os

/-- `_sse_loop` starts with `retry_delay = 5`. -/
def sseLoopDelays (os : List ConnOutcome) : List ℕ :=
  sseDelays 5 os

/-!
SSE line buffering in `_connect_sse` (identical in both coordinator
versions). Text is modelled as `List Char`; the per-chunk byte decoding
(`chunk.decode('utf-8')`) is modelled separately below on `List ℕ` bytes.
-/

/-- Split a buffer at every newline: the Python inner loop
`while '\n' in buffer: line, buffer = buffer.split('\n', 1)` produces
exactly the newline-terminated segments in order; the second component is
the trailing remainder that stays in `buffer` (it contains no newline). -/
def splitNl : List Char → List (List Char) × List Char
  | [] => ([], [])
  | c :: rest =>
      let p := splitNl rest
      if c = '\n' then ([] :: p.1, p.2)
      else
        match p.1 with
        | [] => ([], c :: p.2)
        | l :: ls => ((c :: l) :: ls, p.2)

/-- ASCII whitespace stripped by Python `str.strip()`. -/
def isPyWhitespace (c : Char) : Bool :=
  c = ' ' ∨ c = '\t' ∨ c = '\n' ∨ c = '\r' ∨ c = '\x0b' ∨ c = '\x0c'

/-- Python `line.strip()`: drop leading and trailing whitespace. -/
def stripLine (l : List Char) : List Char :=
  ((l.dropWhile isPyWhitespace).reverse.dropWhile isPyWhitespace).reverse

/-- Python `line.startswith('data: ')` / `line[6:]` fused: the payload after
the SSE data marker, or `none`. -/
def dataPayload : List Char → Option (List Char)
  | 'd' :: 'a' :: 't' :: 'a' :: ':' :: ' ' :: rest => some rest
  | _ => none

/-- Per-line handling in `_connect_sse`: strip, skip empty lines and
`:`-comments, and extract the payload of a `data: ` line (any other line is
silently ignored). The payload is then fed to `json.loads` and
`_process_sse_event`, both functions of the payload alone, so the decoded
event sequence is a function of the payload sequence. -/
def lineToData (l : List Char) : Option (List Char) :=
  let s := stripLine l
  if s = [] then none
  else if s.headD ' ' = ':' then none
  else dataPayload s

/-- Feed one decoded chunk into the line buffer: append to the buffer, then
drain every complete line. Returns the drained lines and the new buffer. -/
def feedChunk (buf : List Char) (chunk : List Char) : List (List Char) × List Char :=
  splitNl (buf ++ chunk)

/-- Fold `feedChunk` over a chunk sequence starting from buffer `buf`,
collecting every complete line in order. -/
def feedAll (buf : List Char) : List (List Char) → List (List Char) × List Char
  | [] => ([], buf)
  | c :: cs =>
      let p := feedChunk buf c
      let q := feedAll p.2 cs
      (p.1 ++ q.1, q.2)

/-- The `data: ` payloads decoded by `_connect_sse` from a sequence of
already-decoded text chunks (initial buffer empty, trailing partial line
never parsed). -/
def ssePayloads (chunks : List (List Char)) : List (List Char) :=
  (feedAll [] chunks).1.filterMap lineToData

/-!
Byte-level chunk handling: `buffer += chunk.decode('utf-8')` with
`except UnicodeDecodeError: continue` — a chunk that is not valid UTF-8 on
its own is dropped wholesale and the loop continues with the next chunk.
-/

/-- Strict UTF-8 decoding of a byte list (as Python `bytes.decode('utf-8')`):
rejects truncated sequences, stray continuation bytes, overlong encodings,
surrogates and code points above `0x10FFFF`. -/
def utf8Decode : List ℕ → Option (List Char)
  | [] => some []
  | b :: bs =>
      if b < 0x80 then
        (utf8Decode bs).map (Char.ofNat b :: ·)
      else if 0xC2 ≤ b ∧ b ≤ 0xDF then
        match bs with
        | b2 :: rest =>
            if 0x80 ≤ b2 ∧ b2 ≤ 0xBF then
              (utf8Decode rest).map (Char.ofNat ((b - 0xC0) * 64 + (b2 - 0x80)) :: ·)
            else none
        | [] => none
      else if 0xE0 ≤ b ∧ b ≤ 0xEF then
        match bs with
        | b2 :: b3 :: rest =>
            let lo2 := if b = 0xE0 then 0xA0 else 0x80
            let hi2 := if b = 0xED then 0x9F else 0xBF
            if (lo2 ≤ b2 ∧ b2 ≤ hi2) ∧ (0x80 ≤ b3 ∧ b3 ≤ 0xBF) then
              (utf8Decode rest).map
                (Char.ofNat ((b - 0xE0) * 4096 + (b2 - 0x80) * 64 + (b3 - 0x80)) :: ·)
            else none
        | _ => none
      else if 0xF0 ≤ b ∧ b ≤ 0xF4 then
        match bs with
        | b2 :: b3 :: b4 :: rest =>
            let lo2 := if b = 0xF0 then 0x90 else 0x80
            let hi2 := if b = 0xF4 then 0x8F else 0xBF
            if (lo2 ≤ b2 ∧ b2 ≤ hi2) ∧ (0x80 ≤ b3 ∧ b3 ≤ 0xBF) ∧ (0x80 ≤ b4 ∧ b4 ≤ 0xBF) then
              (utf8Decode rest).map
                (Char.ofNat ((b - 0xF0) * 262144 + (b2 - 0x80) * 4096 + (b3 - 0x80) * 64 + (b4 - 0x80)) :: ·)
            else none
        | _ => none
      else none

/-- Feed one raw byte chunk: a chunk failing UTF-8 decoding is dropped with
a warning (`continue`), leaving the buffer as it was; otherwise the decoded
text goes through the line buffer. -/
def feedByteChunk (buf : List Char) (chunk : List ℕ) : List (List Char) × List Char :=
  match utf8Decode chunk with
  | none => ([], buf)
  | some s => feedChunk buf s

/-- Fold `feedByteChunk` over a byte-chunk sequence. -/
def feedBytesAll (buf : List Char) : List (List ℕ) → List (List Char) × List Char
  | [] => ([], buf)
  | c :: cs =>
      let p := feedByteChunk buf c
      let q := feedBytesAll p.2 cs
      (p.1 ++ q.1, q.2)

/-- The `data: ` payloads decoded by `_connect_sse` from a sequence of raw
byte chunks as delivered by `response.content.iter_any()`. -/
def ssePayloadsBytes (chunks : List (List ℕ)) : List (List Char) :=
  (feedBytesAll [] chunks).1.filterMap lineToData

/-!
Heap-level model of `_process_sse_event` for the deep-copy discipline.
A zone dict is a mutable cell; the heap is the list of all allocated cells,
addressed by index, and a published table object is a list of cell
addresses. `copy.deepcopy(self.data or [])` allocates fresh cells holding
copies of the current zones; all subsequent writes of the event handler
(`current_data[i] = {...}`, `current_data.append({...})`,
`current_data[i]["state"] = state`) touch only the fresh list and the fresh
cells, never a cell allocated before the call.
-/

/-- The heap of allocated zone dicts, addressed by list index. -/
structure Heap where
  cells : List Zone
deriving Repr

/-- Placeholder for a dangling address (published snapshots only carry
addresses of allocated cells, so it is never observed through them). -/
def defaultZone : Zone := ⟨none, none, none, none, ZoneState.empty⟩

/-- Dereference a table object: the zone values its addresses point at. -/
def readSnap (h : Heap) (addrs : List ℕ) : List (Option Zone) :=
  addrs.map (fun a => h.cells.get? a)

/-- Find the index of the first zone matching the `zone` branch id test
(the `for ... break` loop), over the dereferenced values. -/
def findZoneIdx (zid : Option ℤ) (vals : List Zone) : Option ℕ :=
  vals.findIdx? (zoneIdMatch zid)

/-- Find the index of the first zone matching the `device` branch name test. -/
def findDeviceIdx (zname : Option String) (vals : List Zone) : Option ℕ :=
  vals.findIdx? (deviceMatch zname)

/-- `_process_sse_event` acting on the heap: given the current published
table object `cur` (a list of addresses), return the heap after the call
and the address list passed to `async_set_updated_data` (or `none` on the
early-return paths, which touch nothing). The deep copy appends a fresh
cell for every current zone; the `zone` branch allocates one more fresh
cell for the replacement/appended dict; the `device` branch writes the
`state` key of the matching *fresh* cell in place. -/
def process_sse_event_heap (h : Heap) (cur : List ℕ) (ev : EventData) :
    Heap × Option (List ℕ) :=
  if ev.type = some "keepalive" then (h, none)
  else if ¬ (ev.type = some "zone" ∨ ev.type = some "device") then (h, none)
  else
    let base := h.cells.length
    let vals := cur.map (fun a => (h.cells.get? a).getD defaultZone)
    let h1 : Heap := ⟨h.cells ++ vals⟩
    let fresh := (List.range cur.length).map (· + base)
    let st := ev.state.getD ZoneState.empty
    if ev.type = some "zone" then
      match findZoneIdx ev.zone_id vals with
      | some i =>
          let cell := mkUpdatedZone ev.zone_id ev.zone_name st (vals.getD i defaultZone)
          (⟨h1.cells ++ [cell]⟩, some (fresh.set i h1.cells.length))
      | none =>
          let cell := mkFreshZone ev.zone_id ev.zone_name st
          (⟨h1.cells ++ [cell]⟩, some (fresh ++ [h1.cells.length]))
    else
      match findDeviceIdx ev.zone_name vals with
      | some i =>
          (⟨h1.cells.set (base + i) { vals.getD i defaultZone with state := st }⟩, some fresh)
      | none => (h1, some fresh)

/-!
Concrete records used by witnesses and counterexamples.
-/

/-- A zone as delivered by a poll: id 1, name Lounge, full state. -/
def zoneA : Zone :=
  ⟨some 1, some 1, some "Lounge", some "Lounge", ⟨some 19, some 21, some 1, some 40⟩⟩

/-- A second zone: id 2, name Kitchen. -/
def zoneB : Zone :=
  ⟨some 2, some 2, some "Kitchen", some "Kitchen", ⟨some 18, some 20, some 0, some 0⟩⟩

/-- A partial `zone` SSE event for zone 1: no `zone_name`, and a `state`
payload carrying only `mode` and `cur_heating` (temperatures absent). -/
def evZonePartial : EventData :=
  ⟨some "zone", some 1, none, none, none, some ⟨none, none, some 0, some 0⟩⟩

/-- A `keepalive` SSE event. -/
def evKeepalive : EventData :=
  ⟨some "keepalive", none, none, none, none, none⟩

/-- A `device` SSE event addressed at the zone named Lounge. -/
def evDeviceA : EventData :=
  ⟨some "device", none, some "Lounge", some 9, some "RU123",
    some ⟨some 20, some 21, some 1, some 55⟩⟩

/-- A one-cell heap holding `zoneA`. -/
def heapA : Heap := ⟨[zoneA]⟩

/-!
Theorems.
-/

/-- C5: for every poll cycle, on any transport failure, non-200 status or
body-parse failure, `_async_update_data` returns the last known zone table
unchanged (it does not clear it); it is a total function (no failure path
raises — the outer `except` swallows everything and returns `self.data or []`). -/
theorem C5_poll_failure_keeps_table (t : List Zone) (r : HttpResult)
    (hfail : httpFailed r = true) : async_update_data (some t) r = t := by
  cases r with
  | error => simp [async_update_data]
  | response status body =>
      by_cases hs : status = 200
      · subst hs
        cases body with
        | none => simp [async_update_data]
        | some b => simp [httpFailed] at hfail
      · simp [async_update_data, hs]

/-- Witness for C5 at a concrete failed poll: a 500 response over the table
`[zoneA]` leaves the table exactly `[zoneA]`. -/
theorem C5_witness :
    async_update_data (some [zoneA]) (HttpResult.response 500 none) = [zoneA] :=
  C5_poll_failure_keeps_table [zoneA] (HttpResult.response 500 none) rfl

/-- C6 fails on the legacy entity (`src/climate.py`): a zone whose state has
`mode` 3 yields OFF there, not AUTO — only `mode == 1` maps to HEAT. -/
theorem C6_counterexample :
    Legacy.hvac_mode (some ⟨some 1, some 1, some "Lounge", some "Lounge",
        ⟨some 19, some 21, some 3, some 40⟩⟩) = HVACMode.off
    ∧ HVACMode.off ≠ HVACMode.auto := by
  exact ⟨rfl, by simp⟩

/-- C6 amended: the integration entity
(`custom_components/tado_local/climate.py`) maps mode 1 to HEAT, 3 to AUTO
and everything else (0, absent, unknown) to OFF; the legacy entity maps 1 to
HEAT and everything else — including 3 — to OFF; a missing zone record is
OFF in both. -/
theorem C6_hvac_mode_amended :
    (∀ z : Zone, TadoLocal.hvac_mode (some z) =
        (if z.state.mode = some 3 then .auto
         else if z.state.mode = some 1 then .heat else .off))
    ∧ TadoLocal.hvac_mode none = .off
    ∧ (∀ z : Zone, Legacy.hvac_mode (some z) =
        (if z.state.mode = some 1 then .heat else .off))
    ∧ Legacy.hvac_mode none = .off := by
  refine ⟨fun z => ?_, rfl, fun z => rfl, rfl⟩
  rcases hm : z.state.mode with _ | m <;>
    simp [TadoLocal.hvac_mode, hm]

/-- C7: every `zone` or `device` event reaching `_process_sse_event` ends in
exactly one `async_set_updated_data` call (one notification carrying the
resulting table, modelled as `some table`), while a `keepalive` event or an
event of unknown (or missing) type returns early: no notification and no
table write (modelled as `none`). -/
theorem C7_notification_discipline :
    (∀ (data : Option (List Zone)) (ev : EventData),
        (ev.type = some "zone" ∨ ev.type = some "device") →
        (process_sse_event data ev).isSome = true)
    ∧ (∀ (data : Option (List Zone)) (ev : EventData),
        ¬ (ev.type = some "zone" ∨ ev.type = some "device") →
        process_sse_event data ev = none) := by
  constructor
  · intro data ev hz
    have hk : ¬ ev.type = some "keepalive" := by
      rcases hz with h | h <;> simp [h]
    rcases hz with h | h <;> simp [process_sse_event, hk, h]
  · intro data ev hz
    by_cases hk : ev.type = some "keepalive" <;> simp [process_sse_event, hk, hz]

/-- Witness for C7 at concrete events: a keepalive over `[zoneA]` publishes
nothing; the partial zone event publishes exactly one table. -/
theorem C7_witness :
    process_sse_event (some [zoneA]) evKeepalive = none
    ∧ (process_sse_event (some [zoneA]) evZonePartial).isSome = true := by
  constructor
  · exact C7_notification_discipline.2 (some [zoneA]) evKeepalive (by simp [evKeepalive])
  · exact C7_notification_discipline.1 (some [zoneA]) evZonePartial (Or.inl rfl)

/-- C4 fails on both versions of the command handlers: the claim's success
test is the disjunction "HTTP 200 or the controller's interim code 100", but
the integration version (`custom_components/tado_local/climate.py`) treats
100 as a failure (log, no refresh) and the legacy version (`src/climate.py`)
treats 200 as a failure. -/
theorem C4_counterexample :
    (TadoLocal.async_set_temperature (some [zoneA]) 100).2 = CmdEffect.loggedFailure
    ∧ (Legacy.async_set_temperature (some [zoneA]) 200).2 = CmdEffect.loggedFailure := by
  exact ⟨rfl, rfl⟩

/-- C4 amended: each version accepts exactly one status as success — the
integration version refreshes after a brief wait exactly on HTTP 200, the
legacy version exactly on the controller's interim code 100; every other
status is logged as a failure with no refresh; and in both versions the
handler returns the coordinator table untouched (commands never mutate it). -/
theorem C4_command_amended :
    (∀ (tbl : Option (List Zone)) (s : ℕ),
        (TadoLocal.async_set_temperature tbl s).1 = tbl
        ∧ ((TadoLocal.async_set_temperature tbl s).2 = CmdEffect.refreshed ↔ s = 200))
    ∧ (∀ (tbl : Option (List Zone)) (s : ℕ),
        (Legacy.async_set_temperature tbl s).1 = tbl
        ∧ ((Legacy.async_set_temperature tbl s).2 = CmdEffect.refreshed ↔ s = 100)) := by
  constructor
  · intro tbl s
    refine ⟨rfl, ?_⟩
    by_cases h : s = 200 <;> simp [TadoLocal.async_set_temperature, h]
  · intro tbl s
    refine ⟨rfl, ?_⟩
    by_cases h : s = 100 <;> simp [Legacy.async_set_temperature, h]

/-- C9 fails on Python truthiness: for the body
`{"zones": [], "thermostats": [zoneA]}` the code's
`data.get("zones") or data.get("thermostats") or []` skips the present but
empty `zones` list and returns the thermostats list, while the claim says
the list found under `"zones"` (namely `[]`) becomes the table. -/
theorem C9_counterexample :
    async_update_data (some [])
        (HttpResult.response 200 (some (PollBody.dict (some []) (some [zoneA]))))
      = [zoneA]
    ∧ [zoneA] ≠ ([] : List Zone) := by
  exact ⟨rfl, by simp⟩

/-- C9 amended: a bare JSON list becomes the table; for an object the table
is the `zones` entry when it is present and non-empty, otherwise the
`thermostats` entry when present and non-empty, otherwise `[]` (a present
but empty — falsy — entry is skipped); any other body yields `[]`; and a
successfully parsed body replaces the table wholesale, independent of the
previous table. -/
theorem C9_poll_body_amended :
    (∀ (data : Option (List Zone)) (zs : List Zone),
        async_update_data data (HttpResult.response 200 (some (PollBody.list zs))) = zs)
    ∧ (∀ (data : Option (List Zone)) (zs ts : Option (List Zone)),
        async_update_data data (HttpResult.response 200 (some (PollBody.dict zs ts)))
          = (match zs with
             | some (z :: rest) => z :: rest
             | _ =>
               match ts with
               | some (z :: rest) => z :: rest
               | _ => []))
    ∧ (∀ data : Option (List Zone),
        async_update_data data (HttpResult.response 200 (some PollBody.other)) = []) := by
  refine ⟨fun data zs => rfl, fun data zs ts => ?_, fun data => rfl⟩
  rcases zs with _ | ⟨_ | ⟨z, rest⟩⟩ <;>
    rcases ts with _ | ⟨_ | ⟨w, tsrest⟩⟩ <;>
      simp [async_update_data, extractZones, pyOrList]

/-- Doubling a capped delay and recapping equals capping the doubled delay. -/
theorem min_double_cap (a : ℕ) : min (min a 60 * 2) 60 = min (a * 2) 60 := by
  rcases Nat.le_total a 60 with h | h
  · rw [Nat.min_eq_left h]
  · rw [Nat.min_eq_right h,
        Nat.min_eq_right (by omega : (60 : ℕ) ≤ 120),
        Nat.min_eq_right (by omega : (60 : ℕ) ≤ a * 2)]

/-- Delays of a run of failed attempts starting from a capped delay. -/
theorem sseDelays_replicate_fail (n : ℕ) :
    ∀ k : ℕ, sseDelays (min (5 * 2 ^ k) 60)
        (List.replicate n ConnOutcome.failBeforeStreaming)
      = (List.range n).map (fun i => min (5 * 2 ^ (k + i)) 60) := by
  induction n with
  | zero => intro k; simp [sseDelays]
  | succ n ih =>
      intro k
      rw [List.replicate_succ]
      have h2 : min (min (5 * 2 ^ k) 60 * 2) 60 = min (5 * 2 ^ (k + 1)) 60 := by
        rw [min_double_cap]
        congr 1
        ring
      simp only [sseDelays, sseStep]
      rw [h2, ih (k + 1), List.range_succ_eq_map, List.map_cons, List.map_map]
      simp only [Option.toList, List.singleton_append]
      congr 1
      apply List.map_congr_left
      intro i hi
      have hki : k + 1 + i = k + (i + 1) := by omega
      rw [hki]
      simp [Function.comp]

/-- C2 fails on the reset rule: in the run  failed attempt, then an attempt
that reaches `Streaming` (HTTP 200) but ends with a body read error  the
claim says the second attempt reached `Streaming` and so incurs the reset
backoff of 5s, but `retry_delay = 5` runs only when `_connect_sse` returns
without raising, so the loop sleeps the pre-existing 10s. -/
theorem C2_counterexample :
    sseLoopDelays [ConnOutcome.failBeforeStreaming, ConnOutcome.streamingThenError]
      = [5, 10]
    ∧ ([5, 10] : List ℕ) ≠ [5, 5] := by
  exact ⟨rfl, by simp⟩

/-- C2 amended: delays before reconnection after consecutive failed attempts
starting fresh are exactly 5, 10, 20, 40, 60, 60, ... (doubling, capped at
60s); but only an attempt whose connection ends *without an exception*
resets the next delay to 5s (and sleeps nothing itself); an attempt that
reaches `Streaming` and then dies with a raised error keeps the doubling
schedule. -/
theorem C2_backoff_amended :
    (∀ n : ℕ, sseLoopDelays (List.replicate n ConnOutcome.failBeforeStreaming)
        = (List.range n).map (fun i => min (5 * 2 ^ i) 60))
    ∧ (∀ (d : ℕ) (os : List ConnOutcome),
        sseDelays d (ConnOutcome.normalExit :: os) = sseDelays 5 os)
    ∧ (∀ (d : ℕ) (os : List ConnOutcome),
        sseDelays d (ConnOutcome.streamingThenError :: os)
          = d :: sseDelays (min (d * 2) 60) os) := by
  refine ⟨fun n => ?_, fun d os => rfl, fun d os => rfl⟩
  have h := sseDelays_replicate_fail n 0
  simpa [sseLoopDelays] using h

/-- When no zone matches the event id, the `zone` branch loop reports no
update (`updated` stays `False`). -/
theorem updateZoneLoop_eq_none (zid : Option ℤ) (zname : Option String)
    (st : ZoneState) :
    ∀ t : List Zone, (∀ z ∈ t, zoneIdMatch zid z = false) →
      updateZoneLoop zid zname st t = none := by
  intro t
  induction t with
  | nil => intro _; rfl
  | cons z rest ih =>
      intro hall
      have hz := hall z (List.mem_cons_self z rest)
      have hr := ih (fun w hw => hall w (List.mem_cons_of_mem z hw))
      simp [updateZoneLoop, hz, hr]

/-- The `zone` branch loop replaces exactly the first matching zone
(position `i`, all earlier zones non-matching) and leaves the rest as is. -/
theorem updateZoneLoop_first_match (zid : Option ℤ) (zname : Option String)
    (st : ZoneState) :
    ∀ (t : List Zone) (i : ℕ) (h : i < t.length),
      (∀ j, j < i → zoneIdMatch zid (t.getD j defaultZone) = false) →
      zoneIdMatch zid (t.get ⟨i, h⟩) = true →
      updateZoneLoop zid zname st t
        = some (t.set i (mkUpdatedZone zid zname st (t.get ⟨i, h⟩))) := by
  intro t
  induction t with
  | nil => intro i h; exact absurd h (by simp)
  | cons z rest ih =>
      intro i h hpre hm
      cases i with
      | zero =>
          simp only [List.get] at hm
          simp [updateZoneLoop, hm]
      | succ i =>
          have h0 : zoneIdMatch zid z = false := by
            have := hpre 0 (Nat.succ_pos i)
            simpa using this
          have hr := ih i (by simpa using h)
            (fun j hj => by simpa using hpre (j + 1) (by omega))
            (by simpa using hm)
          simp [updateZoneLoop, h0, hr]

/-- C1 fails on the `state` sub-record: applying the partial zone event to
`[zoneA]` (whose state holds `cur_temp_c = 19`) yields a zone whose
`cur_temp_c` is gone — the event's `state` payload, which omits the
temperatures, replaces the stored state wholesale instead of merging. -/
theorem C1_counterexample :
    (process_sse_event (some [zoneA]) evZonePartial).map
        (List.map (fun z => z.state.cur_temp_c)) = some [none]
    ∧ zoneA.state.cur_temp_c = some 19 := by
  exact ⟨rfl, rfl⟩

/-- C1 amended: for a `zone` event whose id matches an existing zone (first
match, at index `i`), the zone is replaced by `mkUpdatedZone`: the top-level
name fields fall back to the existing zone's values when the event's
`zone_name` is null/absent (or empty), both id fields are overwritten with
the event id, and the `state` sub-record is replaced wholesale by the
event's state payload — fields absent inside it (such as `cur_temp_c` and
`target_temp_c`) are dropped, not retained; every other zone is unchanged.
When no zone matches, a fresh zone is appended (upsert). -/
theorem C1_zone_update_amended (t : List Zone) (ev : EventData)
    (htype : ev.type = some "zone") :
    ((∀ z ∈ t, zoneIdMatch ev.zone_id z = false) →
        process_sse_event (some t) ev
          = some (t ++ [mkFreshZone ev.zone_id ev.zone_name
              (ev.state.getD ZoneState.empty)]))
    ∧ (∀ (i : ℕ) (h : i < t.length),
        (∀ j, j < i → zoneIdMatch ev.zone_id (t.getD j defaultZone) = false) →
        zoneIdMatch ev.zone_id (t.get ⟨i, h⟩) = true →
        process_sse_event (some t) ev
          = some (t.set i (mkUpdatedZone ev.zone_id ev.zone_name
              (ev.state.getD ZoneState.empty) (t.get ⟨i, h⟩)))) := by
  have hk : ¬ ev.type = some "keepalive" := by simp [htype]
  have hne : process_sse_event (some t) ev
      = some (applyZoneEvent ev.zone_id ev.zone_name
          (ev.state.getD ZoneState.empty) t) := by
    simp [process_sse_event, hk, htype]
  constructor
  · intro hnone
    rw [hne]
    unfold applyZoneEvent
    rw [updateZoneLoop_eq_none _ _ _ t hnone]
  · intro i h hpre hm
    rw [hne]
    unfold applyZoneEvent
    rw [updateZoneLoop_first_match _ _ _ t i h hpre hm]

/-- Witness for C1 (amended) at a concrete table: the partial zone event for
id 1 hits `zoneA` at index 1 of `[zoneB, zoneA]` and replaces exactly that
entry with the `mkUpdatedZone` record. -/
theorem C1_witness :
    process_sse_event (some [zoneB, zoneA]) evZonePartial
      = some ([zoneB, zoneA].set 1 (mkUpdatedZone evZonePartial.zone_id
          evZonePartial.zone_name (evZonePartial.state.getD ZoneState.empty)
          ([zoneB, zoneA].get ⟨1, by simp⟩))) :=
  (C1_zone_update_amended [zoneB, zoneA] evZonePartial rfl).2 1 (by simp)
    (fun j hj => by
      have hj0 : j = 0 := by omega
      subst hj0
      decide)
    (by decide)

/-- When no zone name matches, the `device` branch loop returns the table
unchanged (and in particular never creates a zone). -/
theorem applyDeviceEvent_no_match (zname : Option String) (st : ZoneState) :
    ∀ t : List Zone, (∀ z ∈ t, deviceMatch zname z = false) →
      applyDeviceEvent zname st t = t := by
  intro t
  induction t with
  | nil => intro _; rfl
  | cons z rest ih =>
      intro hall
      have hz := hall z (List.mem_cons_self z rest)
      have hr := ih (fun w hw => hall w (List.mem_cons_of_mem z hw))
      simp [applyDeviceEvent, hz, hr]

/-- The `device` branch loop replaces exactly the `state` of the first
matching zone and leaves every other field and every other zone as they
were. -/
theorem applyDeviceEvent_first_match (zname : Option String) (st : ZoneState) :
    ∀ (t : List Zone) (i : ℕ) (h : i < t.length),
      (∀ j, j < i → deviceMatch zname (t.getD j defaultZone) = false) →
      deviceMatch zname (t.get ⟨i, h⟩) = true →
      applyDeviceEvent zname st t = t.set i { t.get ⟨i, h⟩ with state := st } := by
  intro t
  induction t with
  | nil => intro i h; exact absurd h (by simp)
  | cons z rest ih =>
      intro i h hpre hm
      cases i with
      | zero =>
          simp only [List.get] at hm
          simp [applyDeviceEvent, hm]
      | succ i =>
          have h0 : deviceMatch zname z = false := by
            have := hpre 0 (Nat.succ_pos i)
            simpa using this
          have hr := ih i (by simpa using h)
            (fun j hj => by simpa using hpre (j + 1) (by omega))
            (by simpa using hm)
          simp [applyDeviceEvent, h0, hr]

/-- C8: a `device` event whose zone-name field matches some zone (first
match, at index `i`) replaces exactly that zone's `state` sub-record with
the event's state, leaving the zone's other fields and every other zone
untouched; when no zone's name matches, the published table is identical to
the current one — a device event never creates a new zone. -/
theorem C8_device_update (t : List Zone) (ev : EventData)
    (htype : ev.type = some "device") :
    ((∀ z ∈ t, deviceMatch ev.zone_name z = false) →
        process_sse_event (some t) ev = some t)
    ∧ (∀ (i : ℕ) (h : i < t.length),
        (∀ j, j < i → deviceMatch ev.zone_name (t.getD j defaultZone) = false) →
        deviceMatch ev.zone_name (t.get ⟨i, h⟩) = true →
        process_sse_event (some t) ev
          = some (t.set i
              { t.get ⟨i, h⟩ with state := ev.state.getD ZoneState.empty })) := by
  have hk : ¬ ev.type = some "keepalive" := by simp [htype]
  have hz : ¬ ev.type = some "zone" := by simp [htype]
  have hne : process_sse_event (some t) ev
      = some (applyDeviceEvent ev.zone_name (ev.state.getD ZoneState.empty) t) := by
    simp [process_sse_event, hk, hz, htype]
  constructor
  · intro hnone
    rw [hne, applyDeviceEvent_no_match _ _ t hnone]
  · intro i h hpre hm
    rw [hne, applyDeviceEvent_first_match _ _ t i h hpre hm]

/-- Witness for C8 at a concrete table: the Lounge device event hits `zoneA`
at index 0 of `[zoneA, zoneB]` and replaces only its state. -/
theorem C8_witness :
    process_sse_event (some [zoneA, zoneB]) evDeviceA
      = some ([zoneA, zoneB].set 0
          { [zoneA, zoneB].get ⟨0, by simp⟩
              with state := evDeviceA.state.getD ZoneState.empty }) :=
  (C8_device_update [zoneA, zoneB] evDeviceA rfl).2 0 (by simp)
    (fun j hj => absurd hj (by omega)) (by decide)


/-- The leftover kept in the buffer after draining contains no newline. -/
theorem splitNl_snd_no_newline : ∀ l : List Char, '\n' ∉ (splitNl l).2 := by
  intro l
  induction l with
  | nil => simp [splitNl]
  | cons c rest ih =>
      by_cases hc : c = '\n'
      · simpa [splitNl, hc] using ih
      · rcases hp : (splitNl rest).1 with _ | ⟨m, ms⟩
        · simp only [splitNl, if_neg hc, hp, List.mem_cons, not_or]
          exact ⟨fun h => hc h.symm, ih⟩
        · simp only [splitNl, if_neg hc, hp]
          exact ih

/-- A newline-free buffer drains to no lines and stays as it is. -/
theorem splitNl_no_newline : ∀ l : List Char, '\n' ∉ l → splitNl l = ([], l) := by
  intro l
  induction l with
  | nil => intro _; rfl
  | cons c rest ih =>
      intro hl
      have hc : ¬ c = '\n' := fun hcc => hl (hcc ▸ List.mem_cons_self c rest)
      have hr : splitNl rest = ([], rest) :=
        ih (fun hm => hl (List.mem_cons_of_mem c hm))
      simp [splitNl, hc, hr]

/-- Draining a buffer extended on the right: the lines of `a` come first,
then the lines obtained from `a`'s leftover glued to `b`. -/
theorem splitNl_append (a b : List Char) :
    splitNl (a ++ b)
      = ((splitNl a).1 ++ (splitNl ((splitNl a).2 ++ b)).1,
         (splitNl ((splitNl a).2 ++ b)).2) := by
  induction a with
  | nil => simp [splitNl]
  | cons c a ih =>
      by_cases hc : c = '\n'
      · simp [splitNl, hc, ih]
      · rcases ha : (splitNl a).1 with _ | ⟨l, ls⟩
        · rw [List.cons_append]
          simp only [splitNl, ih, ha, if_neg hc, List.nil_append]
          rcases hq : (splitNl ((splitNl a).2 ++ b)).1 with _ | ⟨m, ms⟩ <;>
            simp [splitNl, hq, hc]
        · rw [List.cons_append]
          simp only [splitNl, ih, ha, if_neg hc, List.cons_append]

/-- Folding chunks through the line buffer equals draining the concatenated
text in one pass, for any newline-free starting buffer. -/
theorem feedAll_flatten : ∀ (chunks : List (List Char)) (buf : List Char),
    '\n' ∉ buf → feedAll buf chunks = splitNl (buf ++ chunks.flatten) := by
  intro chunks
  induction chunks with
  | nil =>
      intro buf hbuf
      simp [feedAll, splitNl_no_newline buf hbuf]
  | cons c cs ih =>
      intro buf hbuf
      have hp := splitNl_snd_no_newline (buf ++ c)
      simp only [feedAll, feedChunk]
      rw [ih _ hp, List.flatten_cons, ← List.append_assoc,
        splitNl_append (buf ++ c) cs.flatten]

/-- C3 amended: over decoded text, the SSE reader is chunking-invariant —
for every way of splitting a character stream into chunks, the buffered
line reassembly yields exactly the `data:` payloads of the unsplit stream
(and hence the same decoded event sequence, since each payload is parsed by
a per-payload function), and no incomplete trailing line is ever parsed.
At the byte level this holds only when each delivered chunk is valid UTF-8
on its own: `buffer += chunk.decode('utf-8')` drops a chunk wholesale on
`UnicodeDecodeError`, so a split cutting a multi-byte character changes the
decoded events (see the counterexample). -/
theorem C3_chunking_amended :
    ∀ chunks : List (List Char), ssePayloads chunks = ssePayloads [chunks.flatten] := by
  intro chunks
  unfold ssePayloads
  congr 1
  rw [feedAll_flatten chunks [] (by simp)]
  simp [feedAll, feedChunk]

/-- C3 fails at byte granularity: the stream `data: é\n` (é = `0xC3 0xA9`)
decodes to one payload when delivered whole, but splitting it between the
two bytes of `é` makes both chunks individually invalid UTF-8 — each is
dropped with a warning — so the split stream decodes to no events at all. -/
theorem C3_counterexample :
    ssePayloadsBytes [[0x64, 0x61, 0x74, 0x61, 0x3A, 0x20, 0xC3, 0xA9, 0x0A]]
      = [[Char.ofNat 0xE9]]
    ∧ ssePayloadsBytes [[0x64, 0x61, 0x74, 0x61, 0x3A, 0x20, 0xC3], [0xA9, 0x0A]]
      = []
    ∧ ([[Char.ofNat 0xE9]] : List (List Char)) ≠ [] := by
  exact ⟨rfl, rfl, by simp⟩

/-- Appending freshly allocated cells never changes an existing cell. -/
theorem cells_append_preserves (l l2 : List Zone) (a : ℕ) (ha : a < l.length) :
    (l ++ l2)[a]? = l[a]? :=
  List.getElem?_append_left ha

/-- Every heap write performed by `_process_sse_event` lands in a cell
allocated by its own `copy.deepcopy` (or in the fresh dict it builds), so
every cell that existed before the call holds the same record after it. -/
theorem process_sse_event_heap_preserves_cells (h : Heap) (cur : List ℕ)
    (ev : EventData) :
    ∀ a, a < h.cells.length →
      ((process_sse_event_heap h cur ev).1).cells.get? a = h.cells.get? a := by
  intro a ha
  rw [List.get?_eq_getElem?, List.get?_eq_getElem?]
  unfold process_sse_event_heap
  by_cases hk : ev.type = some "keepalive"
  · simp [hk]
  · by_cases hzd : ev.type = some "zone" ∨ ev.type = some "device"
    · by_cases hz : ev.type = some "zone"
      · rcases hfind : findZoneIdx ev.zone_id
            (cur.map (fun b => h.cells[b]?.getD defaultZone)) with _ | i
        · simp [hk, hzd, hz, hfind]
          rw [cells_append_preserves _ _ a ha]
        · simp [hk, hzd, hz, hfind]
          rw [cells_append_preserves _ _ a ha]
      · have hd : ev.type = some "device" := hzd.resolve_left hz
        rcases hfind : findDeviceIdx ev.zone_name
            (cur.map (fun b => h.cells[b]?.getD defaultZone)) with _ | i
        · simp [hk, hzd, hz, hd, hfind]
          rw [cells_append_preserves _ _ a ha]
        · simp [hk, hzd, hz, hd, hfind]
          rw [cells_append_preserves _ _ a ha]
    · simp [hk, hzd]

/-- C10: `_process_sse_event` deep-copies the current table, edits only the
copy, and publishes the copy — so a subscriber still holding an earlier
snapshot (any address list into the pre-call heap) reads exactly the same
zone records after the event as before it. -/
theorem C10_snapshot_immutable (h : Heap) (cur : List ℕ) (ev : EventData)
    (old : List ℕ) (hold : ∀ a ∈ old, a < h.cells.length) :
    readSnap (process_sse_event_heap h cur ev).1 old = readSnap h old := by
  unfold readSnap
  apply List.map_congr_left
  intro a hamem
  exact process_sse_event_heap_preserves_cells h cur ev a (hold a hamem)

/-- Witness for C10 at a concrete heap: the one-cell heap holding `zoneA`,
published as table `[0]`, reads the same through the heap left by the
partial zone event. -/
theorem C10_witness :
    readSnap (process_sse_event_heap heapA [0] evZonePartial).1 [0]
      = readSnap heapA [0] :=
  C10_snapshot_immutable heapA [0] evZonePartial [0] (by decide)
